import Mathlib

/-!
Verification of the connection-pool core of the repository
(`src/odoo/connection.py`, `src/config/settings.py`).

The embedding is a shallow one:

* `OdooSettings` mirrors the settings dataclass; numeric fields are `Int`
  (Python ints from the environment), timestamps are `Int` seconds.
* `PooledConnection` mirrors `_PooledConnection`: the `client` object is
  abstracted to an identity `id` (object identity), plus the two timestamps.
* The sequential behaviour of the manager's methods is embedded as pure
  state-passing functions over `PoolState` (idle queue contents, live-handle
  counter, warmed flag, fresh-id supply, clock).  Fallible operations return
  explicit result types.  Remote-network behaviour is an oracle
  `net : Nat → Bool` (indexed by the fresh id a creation would use), and the
  passage of time is an adversarial schedule `deltas : Nat → Int` consumed
  once per acquisition-loop iteration.
* Concurrent behaviour is embedded as a labelled transition system `Step`
  on `SysState` (pool state plus the list of checked-out handles), with one
  transition per lock-protected critical section or single queue operation,
  matching the atomicity the source obtains from `self._lock` and the
  queue's own internal lock.
-/

namespace StreamlitOdoo

/-- Mirrors `config/settings.py` `OdooSettings` (environment-derived). -/
structure OdooSettings where
  protocol : String
  host : String
  port : Int
  database : String
  username : String
  api_key : String
  version : Option String
  pool_min_connections : Int
  pool_max_connections : Int
  pool_max_idle_time : Int
  pool_max_lifetime : Int
  pool_health_check_interval : Int
  pool_connection_timeout : Int
deriving Repr, DecidableEq

/-- Parse one integer environment variable with a default, as
`int(os.getenv(key, default))` does: absent means the default, present but
non-numeric raises (`.error`). -/
def parseIntEnv (v : Option String) (dflt : Int) : Except String Int :=
  match v with
  | none => Except.ok dflt
  | some s =>
    match s.toInt? with
    | some n => Except.ok n
    | none => Except.error s

/-- Mirrors the `OdooSettings` dataclass field initialisers: every field is
read from the environment with a documented default; the credential
(`ODOO_API_KEY`) defaults to the empty string and its absence never raises. -/
def loadSettings (env : String → Option String) : Except String OdooSettings := do
  let port ← parseIntEnv (env "ODOO_PORT") 8069
  let pmin ← parseIntEnv (env "ODOO_POOL_MIN_CONNECTIONS") 1
  let pmax ← parseIntEnv (env "ODOO_POOL_MAX_CONNECTIONS") 5
  let idle ← parseIntEnv (env "ODOO_POOL_MAX_IDLE_TIME") 300
  let life ← parseIntEnv (env "ODOO_POOL_MAX_LIFETIME") 3600
  let health ← parseIntEnv (env "ODOO_POOL_HEALTH_CHECK_INTERVAL") 60
  let tout ← parseIntEnv (env "ODOO_POOL_CONNECTION_TIMEOUT") 30
  Except.ok
    { protocol := (env "ODOO_PROTOCOL").getD "jsonrpc"
      host := (env "ODOO_HOST").getD "localhost"
      port := port
      database := (env "ODOO_DATABASE").getD "odoo"
      username := (env "ODOO_USERNAME").getD "admin"
      api_key := (env "ODOO_API_KEY").getD ""
      version := env "ODOO_VERSION"
      pool_min_connections := pmin
      pool_max_connections := pmax
      pool_max_idle_time := idle
      pool_max_lifetime := life
      pool_health_check_interval := health
      pool_connection_timeout := tout }

/-- Mirrors `_PooledConnection`; the `client` object is abstracted to its
identity `id`. -/
structure PooledConnection where
  id : Nat
  created_at : Int
  last_used : Int
deriving Repr, DecidableEq

/-- The errors the pool raises.  In the source all of them are
`OdooIntegrationError` instances distinguished by message; the constructors
here name the raising site (spec taxonomy: `missingApiKey` is
`ConfigurationError`, `acquireTimeout` / `noAvailable` are
`PoolExhaustedError`, the rest `IntegrationError`). -/
inductive PoolError where
  | missingApiKey
  | connectFailed
  | rpcFailure
  | acquireTimeout
  | noAvailable
deriving Repr, DecidableEq

/-- Fullness of a `queue.Queue`: full iff `0 < maxsize ≤ qsize` (a non-positive
`maxsize` means an unbounded queue). -/
def queueFull (maxsize : Int) (qsize : Nat) : Bool :=
  decide (0 < maxsize) && decide (maxsize ≤ (qsize : Int))

/-- The counter update of `_close_connection`:
`self._total_connections = max(0, self._total_connections - 1)`. -/
def closeDecrement (total : Int) : Int :=
  max 0 (total - 1)

/-- Mirrors `_should_discard`: a truthy (non-zero) `pool_max_idle_time`
activates the idle check, a truthy `pool_max_lifetime` the lifetime check. -/
def shouldDiscard (st : OdooSettings) (now : Int) (w : PooledConnection) : Bool :=
  if st.pool_max_idle_time ≠ 0 ∧ st.pool_max_idle_time < now - w.last_used then
    true
  else if st.pool_max_lifetime ≠ 0 ∧ st.pool_max_lifetime < now - w.created_at then
    true
  else
    false

/-- Mirrors `_create_connection`: an empty (falsy) `api_key` raises the
missing-key error before any network activity; otherwise the login either
succeeds (oracle `netOk = true`), yielding a fresh handle with both
timestamps set to now, or fails wrapped as an integration error. -/
def createConnection (st : OdooSettings) (netOk : Bool) (now : Int) (id : Nat) :
    Except PoolError PooledConnection :=
  if st.api_key = "" then
    Except.error PoolError.missingApiKey
  else if netOk then
    Except.ok { id := id, created_at := now, last_used := now }
  else
    Except.error PoolError.connectFailed

/-- Mutable state of one `OdooConnectionManager`, sequential view:
the idle queue's contents (front = next `get`), the live-handle counter,
the warm-up flag, the supply of fresh handle identities, and the clock. -/
structure PoolState where
  idle : List PooledConnection
  total : Int
  warmed : Bool
  nextId : Nat
  now : Int
deriving Repr, DecidableEq

/-- The state of a freshly constructed manager (`__init__`). -/
def initPoolState (now : Int) : PoolState :=
  { idle := [], total := 0, warmed := false, nextId := 0, now := now }

/-- Mirrors `_close_connection` on the pool state: best-effort logout (no observable
pool effect), then the clamped counter decrement under the lock. -/
def closeConnection (s : PoolState) : PoolState :=
  { s with total := closeDecrement s.total }

/-- Mirrors `_release_connection`: stamp `last_used`, then `put_nowait`; if the queue
is full, close the handle instead. -/
def releaseConnection (st : OdooSettings) (s : PoolState) (w : PooledConnection) :
    PoolState :=
  if queueFull st.pool_max_connections s.idle.length then
    closeConnection s
  else
    { s with idle := s.idle ++ [{ w with last_used := s.now }] }

/-- Outcome of one run of `_warm_pool`.  `failed` carries the state after the
partially completed loop (already-created handles are kept); `blocked` marks
the loop stuck forever in a blocking `put` on a full queue (only possible on
a warm-up re-run after a partial failure). -/
inductive WarmResult where
  | done (s : PoolState)
  | failed (e : PoolError) (s : PoolState)
  | blocked (s : PoolState)
deriving Repr, DecidableEq

/-- The `for _ in range(target)` loop body of `_warm_pool`: create, blocking
`put`, then increment the counter.  Creation failure aborts with the state so
far; a `put` on a full queue blocks the (lock-holding) thread forever. -/
def warmLoop (st : OdooSettings) (net : Nat → Bool) : PoolState → Nat → WarmResult
  | s, 0 => WarmResult.done s
  | s, n + 1 =>
    match createConnection st (net s.nextId) s.now s.nextId with
    | Except.error e => WarmResult.failed e s
    | Except.ok w =>
      if queueFull st.pool_max_connections s.idle.length then
        WarmResult.blocked s
      else
        warmLoop st net
          { s with idle := s.idle ++ [w], total := s.total + 1, nextId := s.nextId + 1 } n

/-- Mirrors `_warm_pool`: double-checked `warmed` flag (sequentially one
check), then the creation loop for `min(pool_min_connections,
pool_max_connections)` handles, then mark warmed. -/
def warmPool (st : OdooSettings) (net : Nat → Bool) (s : PoolState) : WarmResult :=
  if s.warmed then
    WarmResult.done s
  else
    match warmLoop st net s (min st.pool_min_connections st.pool_max_connections).toNat with
    | WarmResult.done s' => WarmResult.done { s' with warmed := true }
    | r => r

/-- The pool state a warm-up outcome leaves behind. -/
def WarmResult.state : WarmResult → PoolState
  | WarmResult.done s => s
  | WarmResult.failed _ s => s
  | WarmResult.blocked s => s

/-- Outcome of `_maybe_create_connection`: `noCapacity` is the `None` return,
`failedCreate` a creation exception propagating with the state untouched (the
increment after the failing create never runs). -/
inductive MCResult where
  | noCapacity (s : PoolState)
  | created (w : PooledConnection) (s : PoolState)
  | failedCreate (e : PoolError) (s : PoolState)
deriving Repr, DecidableEq

/-- Mirrors `_maybe_create_connection`: under the lock, the capacity check and
(after a successful creation) the counter increment form one atomic section. -/
def maybeCreateConnection (st : OdooSettings) (net : Nat → Bool) (s : PoolState) :
    MCResult :=
  if st.pool_max_connections ≤ s.total then
    MCResult.noCapacity s
  else
    match createConnection st (net s.nextId) s.now s.nextId with
    | Except.error e => MCResult.failedCreate e s
    | Except.ok w =>
      MCResult.created w { s with total := s.total + 1, nextId := s.nextId + 1 }

/-- Outcome of `_acquire_connection`.  `blockedTime` records how long the call
spent inside a blocking `self._pool.get(timeout=remaining)`.  `stuck` marks a
warm-up deadlocked in a blocking `put` (the acquire never returns). -/
inductive AcquireResult where
  | ok (w : PooledConnection) (s : PoolState) (blockedTime : Int)
  | err (e : PoolError) (s : PoolState) (blockedTime : Int)
  | stuck (s : PoolState)
deriving Repr, DecidableEq

/-- The stale-discard prefix of the acquisition loop: repeatedly
`get_nowait` a handle, advance the clock by the schedule (the time the
iteration's work takes), and either discard a stale handle
(`_close_connection`, restart) or stop.  Returns the handle found (with the
rest of the queue), the updated counter, the clock at the `should_discard`
check, and the next schedule index. -/
def acquireScan (st : OdooSettings) (deltas : Nat → Int) :
    Nat → List PooledConnection → Int → Int →
    Option (PooledConnection × List PooledConnection) × Int × Int × Nat
  | k, [], total, now => (none, total, now, k)
  | k, w :: rest, total, now =>
    let now' := now + deltas k
    if shouldDiscard st now' w then
      acquireScan st deltas (k + 1) rest (closeDecrement total) now'
    else
      (some (w, rest), total, now', k + 1)

/-- Mirrors the body of `_acquire_connection` after warm-up, in the
single-caller (sequential) view: the absolute deadline is fixed on entry;
the loop drains stale idle handles, then — on an empty queue — tries
on-demand creation, then blocks on the queue for the remaining time.  With
no concurrent releaser the blocking `get` can only time out (`Empty`), so the
loop makes at most one blocking attempt. -/
def acquireConn (st : OdooSettings) (net : Nat → Bool) (deltas : Nat → Int)
    (s : PoolState) : AcquireResult :=
  let deadline := s.now + st.pool_connection_timeout
  match acquireScan st deltas 0 s.idle s.total s.now with
  | (some (w, rest), total', now', _) =>
    AcquireResult.ok w { s with idle := rest, total := total', now := now' } 0
  | (none, total', now', k') =>
    let s' : PoolState := { s with idle := [], total := total', now := now' + deltas k' }
    match maybeCreateConnection st net s' with
    | MCResult.failedCreate e s'' => AcquireResult.err e s'' 0
    | MCResult.created w s'' => AcquireResult.ok w s'' 0
    | MCResult.noCapacity s'' =>
      let remaining := deadline - s''.now
      if remaining ≤ 0 then
        AcquireResult.err PoolError.acquireTimeout s'' 0
      else
        AcquireResult.err PoolError.noAvailable
          { s'' with now := s''.now + remaining } remaining

/-- Mirrors `_acquire_connection`: `self._warm_pool()` first, then the
acquisition loop. -/
def acquireConnection (st : OdooSettings) (net : Nat → Bool) (deltas : Nat → Int)
    (s : PoolState) : AcquireResult :=
  match warmPool st net s with
  | WarmResult.done s' => acquireConn st net deltas s'
  | WarmResult.failed e s' => AcquireResult.err e s' 0
  | WarmResult.blocked s' => AcquireResult.stuck s'

/-- Outcome of the caller's operation inside `with manager.connection()`:
success, an `odoorpc` `RPCError`, or any other exception. -/
inductive OpOutcome where
  | ok
  | rpcError
  | appError
deriving Repr, DecidableEq

/-- Result of the `connection()` context manager (and of `_execute`):
normal completion, an `OdooIntegrationError` propagating, the caller's own
non-RPC exception re-raised, or a deadlocked warm-up. -/
inductive ScopedResult where
  | ok (s : PoolState)
  | integrationError (e : PoolError) (s : PoolState)
  | reraised (s : PoolState)
  | stuck (s : PoolState)
deriving Repr, DecidableEq

/-- The `try/except/else` disposal block of `connection()` applied to an
already-acquired handle `w`: normal completion releases the handle, an
`RPCError` destroys it and re-raises as `OdooIntegrationError`, any other
exception destroys it and re-raises the original. -/
def scopedExit (st : OdooSettings) (s : PoolState) (w : PooledConnection)
    (body : OpOutcome) : ScopedResult :=
  match body with
  | OpOutcome.ok => ScopedResult.ok (releaseConnection st s w)
  | OpOutcome.rpcError => ScopedResult.integrationError PoolError.rpcFailure (closeConnection s)
  | OpOutcome.appError => ScopedResult.reraised (closeConnection s)

/-- Mirrors `connection()` / `_execute`: acquire (errors propagate as raised
integration errors), run the caller's operation, dispose via `scopedExit`. -/
def connectionWith (st : OdooSettings) (net : Nat → Bool) (deltas : Nat → Int)
    (s : PoolState) (body : OpOutcome) : ScopedResult :=
  match acquireConnection st net deltas s with
  | AcquireResult.ok w s' _ => scopedExit st s' w body
  | AcquireResult.err e s' _ => ScopedResult.integrationError e s'
  | AcquireResult.stuck s' => ScopedResult.stuck s'

/-- What a call to `ping()` does: return a boolean, raise, or hang. -/
inductive PingResult where
  | returns (b : Bool) (s : PoolState)
  | raises (s : PoolState)
  | hangs (s : PoolState)
deriving Repr, DecidableEq

/-- Mirrors `ping()`: run the trivial introspection call (`client.db.list()`,
whose outcome is `body`) through `_execute`; `OdooIntegrationError` is caught
and mapped to `false`, success to `true`; any other exception escapes. -/
def ping (st : OdooSettings) (net : Nat → Bool) (deltas : Nat → Int)
    (s : PoolState) (body : OpOutcome) : PingResult :=
  match connectionWith st net deltas s body with
  | ScopedResult.ok s' => PingResult.returns true s'
  | ScopedResult.integrationError _ s' => PingResult.returns false s'
  | ScopedResult.reraised s' => PingResult.raises s'
  | ScopedResult.stuck s' => PingResult.hangs s'

/-- Handles created by one run of the warm-up loop: `j` fresh handles with
consecutive identities starting at `base`, both timestamps `now`. -/
def warmBatch (base : Nat) (now : Int) (j : Nat) : List PooledConnection :=
  (List.range j).map (fun i => { id := base + i, created_at := now, last_used := now })

/-- Global state for the concurrent view: the pool state plus the handles
currently checked out (held exclusively by callers). -/
structure SysState where
  pool : PoolState
  checkedOut : List PooledConnection
deriving Repr, DecidableEq

/-- A freshly constructed manager with no callers. -/
def initSysState : SysState :=
  { pool := initPoolState 0, checkedOut := [] }

/-- One atomic step of the concurrent system.  Each constructor corresponds
to a lock-protected critical section of the source or to a single operation
on the internally synchronised queue:

* `timeAdvance` — the clock moves forward.
* `warmRun` — one run of the `_warm_pool` critical section that created and
  enqueued `j` handles (`j` short of the target means creation failed or a
  blocking `put` wedged the loop; `j` equal to the target marks the pool
  warmed).  Each of the `j` blocking `put`s required the queue not to be
  full at that moment.  Moves past `_warm_pool` (and hence checkouts) only
  happen once some run has set `warmed`.
* `dequeue` — a `get` / `get_nowait` hands the front idle handle to a caller.
* `createHandle` — the `_maybe_create_connection` critical section succeeds:
  capacity check and counter increment in one atomic step.
* `releaseEnqueue` — `_release_connection` on a non-full queue: stamp
  `last_used`, enqueue at the back.
* `destroyHandle` — `_close_connection` on a checked-out handle (stale
  discard, release-on-full, or the failure paths of `connection()`):
  clamped counter decrement. -/
inductive Step (st : OdooSettings) : SysState → SysState → Prop where
  | timeAdvance (s : SysState) (d : Int) (hd : 0 ≤ d) :
      Step st s { s with pool := { s.pool with now := s.pool.now + d } }
  | warmRun (s : SysState) (j : Nat)
      (hw : s.pool.warmed = false)
      (hj : (j : Int) ≤ min st.pool_min_connections st.pool_max_connections)
      (hput : ∀ i < j, queueFull st.pool_max_connections (s.pool.idle.length + i) = false) :
      Step st s
        { s with pool :=
          { s.pool with
            idle := s.pool.idle ++ warmBatch s.pool.nextId s.pool.now j
            total := s.pool.total + j
            nextId := s.pool.nextId + j
            warmed := decide ((j : Int) = min st.pool_min_connections st.pool_max_connections) } }
  | dequeue (s : SysState) (w : PooledConnection) (rest : List PooledConnection)
      (hw : s.pool.warmed = true) (hq : s.pool.idle = w :: rest) :
      Step st s
        { pool := { s.pool with idle := rest }
          checkedOut := s.checkedOut ++ [w] }
  | createHandle (s : SysState)
      (hw : s.pool.warmed = true)
      (hcap : s.pool.total < st.pool_max_connections) :
      Step st s
        { pool := { s.pool with total := s.pool.total + 1, nextId := s.pool.nextId + 1 }
          checkedOut := s.checkedOut ++
            [{ id := s.pool.nextId, created_at := s.pool.now, last_used := s.pool.now }] }
  | releaseEnqueue (s : SysState) (l₁ l₂ : List PooledConnection) (w : PooledConnection)
      (hc : s.checkedOut = l₁ ++ w :: l₂)
      (hfull : queueFull st.pool_max_connections s.pool.idle.length = false) :
      Step st s
        { pool := { s.pool with idle := s.pool.idle ++ [{ w with last_used := s.pool.now }] }
          checkedOut := l₁ ++ l₂ }
  | destroyHandle (s : SysState) (l₁ l₂ : List PooledConnection) (w : PooledConnection)
      (hc : s.checkedOut = l₁ ++ w :: l₂) :
      Step st s
        { pool := { s.pool with total := closeDecrement s.pool.total }
          checkedOut := l₁ ++ l₂ }

/-- States reachable from a fresh manager by any interleaving of atomic
steps. -/
def Reachable (st : OdooSettings) (s : SysState) : Prop :=
  Relation.ReflTransGen (Step st) initSysState s

/-- All handle identities the pool is responsible for (idle then checked
out). -/
def handleIds (s : SysState) : List Nat :=
  (s.pool.idle ++ s.checkedOut).map (fun w => w.id)

/-- The inductive invariant of the concurrent system. -/
structure Inv (st : OdooSettings) (s : SysState) : Prop where
  counts : s.pool.total = s.pool.idle.length + s.checkedOut.length
  cap : 0 ≤ st.pool_max_connections → s.pool.total ≤ st.pool_max_connections
  unwarmedNoCheckout : s.pool.warmed = false → s.checkedOut = []
  fresh : ∀ w ∈ s.pool.idle ++ s.checkedOut, w.id < s.pool.nextId
  nodup : (handleIds s).Nodup

/-- The abstract counter transitions of the live-handle counter: a successful
creation increments it, `_close_connection` applies the clamped decrement. -/
inductive CounterOp where
  | incr
  | close
deriving Repr, DecidableEq

/-- Apply one counter transition. -/
def applyCounterOp (t : Int) : CounterOp → Int
  | CounterOp.incr => t + 1
  | CounterOp.close => closeDecrement t

/-- A concrete settings value mirroring the documented defaults, with a
credential set (used to instantiate theorems at concrete inputs). -/
def testSettings : OdooSettings :=
  { protocol := "jsonrpc", host := "localhost", port := 8069, database := "odoo"
    username := "admin", api_key := "secret", version := none
    pool_min_connections := 1, pool_max_connections := 5
    pool_max_idle_time := 300, pool_max_lifetime := 3600
    pool_health_check_interval := 60, pool_connection_timeout := 30 }

/-- The `testSettings` value with the credential unset. -/
def emptyKeySettings : OdooSettings :=
  { testSettings with api_key := "" }

/-- The `testSettings` value with the degenerate capacity `pool_max_connections = 0`. -/
def zeroMaxSettings : OdooSettings :=
  { testSettings with pool_max_connections := 0 }

/-- A pool state with one handle checked out (counter 1, empty idle queue). -/
def sampleState : PoolState :=
  { idle := [], total := 1, warmed := true, nextId := 1, now := 0 }

/-- A saturated pool state: warmed, empty idle queue, counter at capacity. -/
def saturatedState : PoolState :=
  { idle := [], total := 5, warmed := true, nextId := 5, now := 0 }

/-- A sample handle. -/
def sampleHandle : PooledConnection :=
  { id := 0, created_at := 0, last_used := 0 }


theorem warmBatch_length (base : Nat) (now : Int) (j : Nat) :
    (warmBatch base now j).length = j := by
  simp [warmBatch]

theorem warmBatch_id_bounds (base : Nat) (now : Int) (j : Nat) (w : PooledConnection)
    (hw : w ∈ warmBatch base now j) : base ≤ w.id ∧ w.id < base + j := by
  simp only [warmBatch, List.mem_map, List.mem_range] at hw
  obtain ⟨i, hi, rfl⟩ := hw
  exact ⟨by simp, by simp; omega⟩

theorem warmBatch_ids_nodup (base : Nat) (now : Int) (j : Nat) :
    ((warmBatch base now j).map (fun w => w.id)).Nodup := by
  have h : (warmBatch base now j).map (fun w => w.id) =
      (List.range j).map (fun i => base + i) := by
    simp [warmBatch, List.map_map, Function.comp]
  rw [h]
  exact (List.nodup_range j).map (fun a b hab => by omega)

theorem queueFull_eq_false_iff (maxsize : Int) (qsize : Nat) :
    queueFull maxsize qsize = false ↔ maxsize ≤ 0 ∨ (qsize : Int) < maxsize := by
  simp [queueFull]
  omega

theorem perm_cons_out {α : Type} (A B C : List α) (x : α) :
    (A ++ (B ++ x :: C)).Perm (x :: (A ++ (B ++ C))) := by
  have h1 : A ++ (B ++ x :: C) = (A ++ B) ++ x :: C := by rw [List.append_assoc]
  have h2 : x :: (A ++ (B ++ C)) = x :: ((A ++ B) ++ C) := by rw [List.append_assoc]
  rw [h1, h2]
  exact List.perm_middle

theorem inv_init (st : OdooSettings) : Inv st initSysState := by
  refine ⟨?_, ?_, ?_, ?_, ?_⟩ <;> simp [initSysState, initPoolState, handleIds]

theorem inv_step {st : OdooSettings} {s s' : SysState}
    (hinv : Inv st s) (hstep : Step st s s') : Inv st s' := by
  obtain ⟨hcounts, hcap, hunwarmed, hfresh, hnodup⟩ := hinv
  cases hstep with
  | timeAdvance d hd =>
    exact ⟨hcounts, hcap, hunwarmed, hfresh, hnodup⟩
  | warmRun j hw hj hput =>
    have hc0 : s.checkedOut = [] := hunwarmed hw
    have hjle : s.pool.idle.length + j ≤ st.pool_max_connections ∨ j = 0 := by
      rcases Nat.eq_zero_or_pos j with hj0 | hj0
      · exact Or.inr hj0
      · have := hput (j - 1) (by omega)
        rw [queueFull_eq_false_iff] at this
        rcases this with hle | hlt
        · -- maxsize ≤ 0: the warm target is then ≤ 0, so j = 0
          have : (j : Int) ≤ 0 := le_trans hj (le_trans (min_le_right _ _) hle)
          omega
        · left
          have : ((s.pool.idle.length + (j - 1) : Nat) : Int) < st.pool_max_connections := hlt
          push_cast at this ⊢
          omega
    refine ⟨?_, ?_, ?_, ?_, ?_⟩
    · show s.pool.total + (j : Int) = _
      rw [hc0] at hcounts ⊢
      simp [warmBatch_length] at hcounts ⊢
      omega
    · intro hmax
      show s.pool.total + (j : Int) ≤ _
      rw [hc0] at hcounts
      simp at hcounts
      rcases hjle with hle | hj0
      · omega
      · subst hj0
        simpa using hcap hmax
    · intro _
      exact hc0
    · intro w hwmem
      show w.id < s.pool.nextId + j
      rw [hc0] at hwmem
      simp only [List.append_nil, List.mem_append] at hwmem
      rcases hwmem with hold | hnew
      · have := hfresh w (by rw [hc0]; simp [hold])
        omega
      · exact (warmBatch_id_bounds _ _ _ _ hnew).2
    · show ((( s.pool.idle ++ warmBatch s.pool.nextId s.pool.now j) ++ s.checkedOut).map
        (fun w => w.id)).Nodup
      rw [hc0, List.append_nil, List.map_append, List.nodup_append]
      have hA : (s.pool.idle.map (fun w => w.id)).Nodup := by
        have := hnodup
        simp only [handleIds, hc0, List.append_nil] at this
        exact this
      refine ⟨hA, warmBatch_ids_nodup _ _ _, ?_⟩
      intro a ha hb
      simp only [List.mem_map] at ha hb
      obtain ⟨wa, hwa, rfl⟩ := ha
      obtain ⟨wb, hwb, hab⟩ := hb
      have h1 := hfresh wa (by rw [hc0]; simp [hwa])
      have h2 := (warmBatch_id_bounds _ _ _ _ hwb).1
      omega
  | dequeue w rest hw hq =>
    refine ⟨?_, ?_, ?_, ?_, ?_⟩
    · show s.pool.total = (rest.length : Int) + (s.checkedOut ++ [w]).length
      rw [hq] at hcounts
      simp at hcounts ⊢
      omega
    · exact hcap
    · intro hfalse
      simp [hw] at hfalse
    · intro v hv
      simp only [List.mem_append, List.mem_singleton] at hv
      apply hfresh
      rw [hq]
      simp only [List.cons_append, List.mem_cons, List.mem_append]
      tauto
    · have hperm : ((rest ++ (s.checkedOut ++ [w])).map (fun u => u.id)).Perm
          (((w :: rest) ++ s.checkedOut).map (fun u => u.id)) := by
        apply List.Perm.map
        have h1 : rest ++ (s.checkedOut ++ [w]) = (rest ++ s.checkedOut) ++ [w] := by
          rw [List.append_assoc]
        rw [h1]
        exact List.perm_append_singleton w (rest ++ s.checkedOut)
      have hold : (((w :: rest) ++ s.checkedOut).map (fun u => u.id)).Nodup := by
        simp only [handleIds, hq] at hnodup
        exact hnodup
      exact hperm.symm.nodup hold
  | createHandle hw hcap' =>
    refine ⟨?_, ?_, ?_, ?_, ?_⟩
    · show s.pool.total + 1 = _
      simp only [List.length_append, List.length_singleton]
      push_cast
      omega
    · intro hmax
      show s.pool.total + 1 ≤ _
      omega
    · intro hfalse
      simp [hw] at hfalse
    · intro v hv
      show v.id < s.pool.nextId + 1
      simp only [List.mem_append, List.mem_singleton] at hv
      rcases hv with hv | hv | rfl
      · have := hfresh v (by simp [hv])
        omega
      · have := hfresh v (by simp [hv])
        omega
      · simp
    · show ((s.pool.idle ++ (s.checkedOut ++
          [({ id := s.pool.nextId, created_at := s.pool.now, last_used := s.pool.now } :
            PooledConnection)])).map (fun u : PooledConnection => u.id)).Nodup
      have hperm : ((s.pool.idle ++ (s.checkedOut ++
          [({ id := s.pool.nextId, created_at := s.pool.now, last_used := s.pool.now } :
            PooledConnection)])).map (fun u => u.id)).Perm
          ((s.pool.nextId) :: (s.pool.idle ++ s.checkedOut).map (fun u => u.id)) := by
        have h1 : s.pool.idle ++ (s.checkedOut ++
            [({ id := s.pool.nextId, created_at := s.pool.now, last_used := s.pool.now } :
              PooledConnection)]) =
            (s.pool.idle ++ s.checkedOut) ++
            [({ id := s.pool.nextId, created_at := s.pool.now, last_used := s.pool.now } :
              PooledConnection)] := by
          rw [List.append_assoc]
        rw [h1, List.map_append]
        exact List.perm_append_singleton _ _
      refine hperm.symm.nodup ?_
      rw [List.nodup_cons]
      refine ⟨?_, hnodup⟩
      intro hmem
      simp only [List.mem_map] at hmem
      obtain ⟨v, hv, hid⟩ := hmem
      have := hfresh v hv
      omega
  | releaseEnqueue l₁ l₂ w hc hfull =>
    refine ⟨?_, ?_, ?_, ?_, ?_⟩
    · show s.pool.total = _
      rw [hc] at hcounts
      simp at hcounts ⊢
      omega
    · exact hcap
    · intro hfalse
      have := hunwarmed hfalse
      rw [hc] at this
      simp at this
    · intro v hv
      show v.id < s.pool.nextId
      simp only [List.mem_append, List.mem_singleton] at hv
      have hwid : w.id < s.pool.nextId := by
        apply hfresh
        rw [hc]
        simp
      rcases hv with (hv | rfl) | hv | hv
      · exact hfresh v (by simp [hv])
      · exact hwid
      · exact hfresh v (by rw [hc]; simp [hv])
      · exact hfresh v (by rw [hc]; simp [hv])
    · have hold : ((s.pool.idle ++ (l₁ ++ w :: l₂)).map
          (fun u : PooledConnection => u.id)).Nodup := by
        simp only [handleIds, hc] at hnodup
        exact hnodup
      have hstep1 : ((s.pool.idle ++ (l₁ ++ w :: l₂)).map
          (fun u : PooledConnection => u.id)).Perm
          (w.id :: (s.pool.idle.map (fun u : PooledConnection => u.id) ++
            (l₁.map (fun u : PooledConnection => u.id) ++
              l₂.map (fun u : PooledConnection => u.id)))) := by
        simp only [List.map_append, List.map_cons]
        exact perm_cons_out _ _ _ _
      have hn1 := hstep1.nodup hold
      have hstep2 : (((s.pool.idle ++ [{ w with last_used := s.pool.now }]) ++
          (l₁ ++ l₂)).map (fun u : PooledConnection => u.id)).Perm
          (w.id :: (s.pool.idle.map (fun u : PooledConnection => u.id) ++
            (l₁.map (fun u : PooledConnection => u.id) ++
              l₂.map (fun u : PooledConnection => u.id)))) := by
        have h1 : (s.pool.idle ++ [{ w with last_used := s.pool.now }]) ++ (l₁ ++ l₂) =
            s.pool.idle ++ (({ w with last_used := s.pool.now } : PooledConnection) ::
              (l₁ ++ l₂)) := by
          simp
        rw [h1]
        simp only [List.map_append, List.map_cons]
        exact List.perm_middle
      exact hstep2.symm.nodup hn1
  | destroyHandle l₁ l₂ w hc =>
    have htot1 : (1 : Int) ≤ s.pool.total := by
      rw [hc] at hcounts
      simp at hcounts
      omega
    refine ⟨?_, ?_, ?_, ?_, ?_⟩
    · show closeDecrement s.pool.total = _
      rw [hc] at hcounts
      simp [closeDecrement] at hcounts ⊢
      omega
    · intro hmax
      show closeDecrement s.pool.total ≤ _
      have := hcap hmax
      simp [closeDecrement]
      omega
    · intro hfalse
      have := hunwarmed hfalse
      rw [hc] at this
      simp at this
    · intro v hv
      simp only [List.mem_append] at hv
      rcases hv with hv | hv | hv
      · exact hfresh v (by simp [hv])
      · exact hfresh v (by rw [hc]; simp [hv])
      · exact hfresh v (by rw [hc]; simp [hv])
    · show ((s.pool.idle ++ (l₁ ++ l₂)).map (fun u : PooledConnection => u.id)).Nodup
      have hold : ((s.pool.idle ++ (l₁ ++ w :: l₂)).map
          (fun u : PooledConnection => u.id)).Nodup := by
        simp only [handleIds, hc] at hnodup
        exact hnodup
      have hstep1 : ((s.pool.idle ++ (l₁ ++ w :: l₂)).map
          (fun u : PooledConnection => u.id)).Perm
          (w.id :: (s.pool.idle.map (fun u : PooledConnection => u.id) ++
            (l₁.map (fun u : PooledConnection => u.id) ++
              l₂.map (fun u : PooledConnection => u.id)))) := by
        simp only [List.map_append, List.map_cons]
        exact perm_cons_out _ _ _ _
      have hn1 := hstep1.nodup hold
      rw [List.nodup_cons] at hn1
      simpa [List.map_append] using hn1.2

theorem inv_of_reachable {st : OdooSettings} {s : SysState}
    (h : Reachable st s) : Inv st s := by
  induction h with
  | refl => exact inv_init st
  | tail hmid hlast ih => exact inv_step ih hlast

theorem warmLoop_state (st : OdooSettings) (net : Nat → Bool) :
    ∀ (n : Nat) (s : PoolState),
      ∃ j : Nat, j ≤ n ∧
        (warmLoop st net s n).state.now = s.now ∧
        (warmLoop st net s n).state.warmed = s.warmed ∧
        (warmLoop st net s n).state.total = s.total + j ∧
        (warmLoop st net s n).state.idle.length = s.idle.length + j ∧
        (warmLoop st net s n).state.nextId = s.nextId + j := by
  intro n
  induction n with
  | zero =>
    intro s
    exact ⟨0, by simp [warmLoop, WarmResult.state]⟩
  | succ n ih =>
    intro s
    rcases hcr : createConnection st (net s.nextId) s.now s.nextId with e | w
    · exact ⟨0, by simp [warmLoop, hcr, WarmResult.state]⟩
    · by_cases hfull : queueFull st.pool_max_connections s.idle.length
      · exact ⟨0, by simp [warmLoop, hcr, hfull, WarmResult.state]⟩
      · obtain ⟨j, hj, h1, h2, h3, h4, h5⟩ :=
          ih { s with idle := s.idle ++ [w], total := s.total + 1, nextId := s.nextId + 1 }
        refine ⟨j + 1, by omega, ?_⟩
        simp only [warmLoop, hcr, hfull, if_false, Bool.false_eq_true]
        simp at h1 h2 h3 h4 h5
        refine ⟨h1, h2, by push_cast at h3 ⊢; omega, by omega, by omega⟩

theorem warmLoop_success (st : OdooSettings) (net : Nat → Bool)
    (hkey : st.api_key ≠ "") (hnet : ∀ i, net i = true) :
    ∀ (n : Nat) (s : PoolState),
      (∀ i : Nat, i < n → queueFull st.pool_max_connections (s.idle.length + i) = false) →
      ∃ s', warmLoop st net s n = WarmResult.done s' ∧
        s'.idle.length = s.idle.length + n ∧ s'.total = s.total + n ∧
        s'.nextId = s.nextId + n ∧ s'.warmed = s.warmed ∧ s'.now = s.now := by
  intro n
  induction n with
  | zero =>
    intro s _
    exact ⟨s, rfl, by simp, by simp, by simp, rfl, rfl⟩
  | succ n ih =>
    intro s hput
    have hcreate : createConnection st (net s.nextId) s.now s.nextId =
        Except.ok { id := s.nextId, created_at := s.now, last_used := s.now } := by
      simp [createConnection, hkey, hnet]
    have hfull : queueFull st.pool_max_connections s.idle.length = false := by
      have h := hput 0 (by omega)
      simpa using h
    obtain ⟨s', h1, h2, h3, h4, h5, h6⟩ :=
      ih { s with
            idle := s.idle ++ [{ id := s.nextId, created_at := s.now, last_used := s.now }]
            total := s.total + 1
            nextId := s.nextId + 1 }
        (by
          intro i hi
          have h := hput (i + 1) (by omega)
          have harg :
              (s.idle ++
                [({ id := s.nextId, created_at := s.now, last_used := s.now } :
                  PooledConnection)]).length + i = s.idle.length + (i + 1) := by
            simp
            omega
          rw [harg]
          exact h)
    refine ⟨s', ?_, ?_, ?_, ?_, h5, h6⟩
    · simp only [warmLoop, hcreate, hfull, Bool.false_eq_true, if_false]
      exact h1
    · simp at h2
      omega
    · simp at h3
      push_cast at h3 ⊢
      omega
    · simp at h4
      omega

theorem warmPool_already (st : OdooSettings) (net : Nat → Bool) (s : PoolState)
    (hw : s.warmed = true) : warmPool st net s = WarmResult.done s := by
  simp [warmPool, hw]

theorem warmPool_failed_spec (st : OdooSettings) (net : Nat → Bool)
    (s : PoolState) (e : PoolError) (s' : PoolState)
    (h : warmPool st net s = WarmResult.failed e s') :
    s'.warmed = false ∧ s'.now = s.now ∧
    ∃ j : Nat, j ≤ (min st.pool_min_connections st.pool_max_connections).toNat ∧
      s'.total = s.total + j ∧ s'.idle.length = s.idle.length + j := by
  unfold warmPool at h
  by_cases hw : s.warmed
  · simp [hw] at h
  · simp only [hw, if_false, Bool.false_eq_true] at h
    rcases hwl : warmLoop st net s
        (min st.pool_min_connections st.pool_max_connections).toNat with s₁ | es₁ | s₁ <;>
      rw [hwl] at h
    · simp at h
    · obtain ⟨j, hj, hnow, hwarm, htot, hidle, -⟩ :=
        warmLoop_state st net (min st.pool_min_connections st.pool_max_connections).toNat s
      rw [hwl] at hnow hwarm htot hidle
      cases h
      simp only [WarmResult.state] at hnow hwarm htot hidle
      refine ⟨?_, hnow, j, hj, htot, hidle⟩
      rw [hwarm]
      simpa using hw
    · simp at h

theorem maybeCreate_noCapacity_spec (st : OdooSettings) (net : Nat → Bool)
    (s s' : PoolState) (h : maybeCreateConnection st net s = MCResult.noCapacity s') :
    s' = s ∧ st.pool_max_connections ≤ s.total := by
  unfold maybeCreateConnection at h
  split at h
  · cases h
    exact ⟨rfl, by assumption⟩
  · split at h <;> cases h

theorem maybeCreate_created_spec (st : OdooSettings) (net : Nat → Bool)
    (s : PoolState) (w : PooledConnection) (s' : PoolState)
    (h : maybeCreateConnection st net s = MCResult.created w s') :
    w = { id := s.nextId, created_at := s.now, last_used := s.now } ∧
    s' = { s with total := s.total + 1, nextId := s.nextId + 1 } ∧
    s.total < st.pool_max_connections := by
  unfold maybeCreateConnection at h
  split at h
  · cases h
  · rcases hcr : createConnection st (net s.nextId) s.now s.nextId with e | w₀ <;>
      rw [hcr] at h
    · cases h
    · cases h
      unfold createConnection at hcr
      split at hcr
      · cases hcr
      · split at hcr
        · cases hcr
          exact ⟨rfl, rfl, by omega⟩
        · cases hcr

theorem maybeCreate_failedCreate_spec (st : OdooSettings) (net : Nat → Bool)
    (s : PoolState) (e : PoolError) (s' : PoolState)
    (h : maybeCreateConnection st net s = MCResult.failedCreate e s') :
    s' = s ∧ s.total < st.pool_max_connections := by
  unfold maybeCreateConnection at h
  split at h
  · cases h
  · split at h
    · cases h
      exact ⟨rfl, by omega⟩
    · cases h

theorem acquireScan_now_mono (st : OdooSettings) (deltas : Nat → Int)
    (hdel : ∀ k, 0 ≤ deltas k) :
    ∀ (idle : List PooledConnection) (k : Nat) (total now : Int)
      (o : Option (PooledConnection × List PooledConnection)) (total' now' : Int) (k' : Nat),
      acquireScan st deltas k idle total now = (o, total', now', k') → now ≤ now' := by
  intro idle
  induction idle with
  | nil =>
    intro k total now o t' n' k' h
    simp [acquireScan] at h
    omega
  | cons w rest ih =>
    intro k total now o t' n' k' h
    simp only [acquireScan] at h
    split at h
    · have := ih (k + 1) (closeDecrement total) (now + deltas k) o t' n' k' h
      have := hdel k
      omega
    · simp only [Prod.mk.injEq] at h
      have := hdel k
      omega

theorem acquireScan_some_not_stale (st : OdooSettings) (deltas : Nat → Int) :
    ∀ (idle : List PooledConnection) (k : Nat) (total now : Int)
      (w : PooledConnection) (rest : List PooledConnection) (total' now' : Int) (k' : Nat),
      acquireScan st deltas k idle total now = (some (w, rest), total', now', k') →
      shouldDiscard st now' w = false := by
  intro idle
  induction idle with
  | nil =>
    intro k total now w rest t' n' k' h
    simp [acquireScan] at h
  | cons w₀ rest₀ ih =>
    intro k total now w rest t' n' k' h
    simp only [acquireScan] at h
    split at h
    · exact ih (k + 1) (closeDecrement total) (now + deltas k) w rest t' n' k' h
    · rename_i hnd
      simp only [Prod.mk.injEq, Option.some.injEq] at h
      obtain ⟨⟨rfl, -⟩, -, rfl, -⟩ := h
      simpa using hnd

theorem shouldDiscard_fresh (st : OdooSettings)
    (hidle : 0 ≤ st.pool_max_idle_time) (hlife : 0 ≤ st.pool_max_lifetime)
    (now : Int) (id : Nat) :
    shouldDiscard st now { id := id, created_at := now, last_used := now } = false := by
  simp only [shouldDiscard]
  rw [if_neg, if_neg]
  · show ¬(st.pool_max_lifetime ≠ 0 ∧ st.pool_max_lifetime < now - now)
    omega
  · show ¬(st.pool_max_idle_time ≠ 0 ∧ st.pool_max_idle_time < now - now)
    omega

theorem acquireConn_saturated (st : OdooSettings) (net : Nat → Bool) (deltas : Nat → Int)
    (s : PoolState) (hidle : s.idle = []) (hsat : st.pool_max_connections ≤ s.total) :
    ∃ e s' b, acquireConn st net deltas s = AcquireResult.err e s' b ∧
      (e = PoolError.acquireTimeout ∨ e = PoolError.noAvailable) := by
  simp only [acquireConn, hidle, acquireScan]
  split
  · rename_i e s'' heq
    obtain ⟨-, hlt⟩ := maybeCreate_failedCreate_spec _ _ _ _ _ heq
    simp at hlt
    omega
  · rename_i w s'' heq
    obtain ⟨-, -, hlt⟩ := maybeCreate_created_spec _ _ _ _ _ heq
    simp at hlt
    omega
  · rename_i s'' heq
    split
    · exact ⟨PoolError.acquireTimeout, s'', 0, rfl, Or.inl rfl⟩
    · exact ⟨PoolError.noAvailable, _, _, rfl, Or.inr rfl⟩

/-- C1: For every use of the `connection()` context manager with an acquired
handle, the handle is disposed of on every exit path: on normal completion
of the caller's operation it is released back to the pool (the pool's idle
queue then contains it, counter unchanged); if an `RPCError` surfaces the
handle is destroyed (counter decremented, handle not re-enqueued) and the
error is re-raised as `OdooIntegrationError`; on any other exception the
handle is destroyed and the original exception propagates.  A handle on
which the operation failed is never returned to the pool. -/
theorem scoped_connection_disposal (st : OdooSettings) (s : PoolState)
    (w : PooledConnection)
    (hnotin : w.id ∉ s.idle.map (fun u => u.id))
    (hroom : queueFull st.pool_max_connections s.idle.length = false) :
    (∃ s', scopedExit st s w OpOutcome.ok = ScopedResult.ok s' ∧
      w.id ∈ s'.idle.map (fun u => u.id) ∧ s'.total = s.total) ∧
    (scopedExit st s w OpOutcome.rpcError =
        ScopedResult.integrationError PoolError.rpcFailure (closeConnection s) ∧
      w.id ∉ (closeConnection s).idle.map (fun u => u.id) ∧
      (closeConnection s).total = closeDecrement s.total) ∧
    (scopedExit st s w OpOutcome.appError = ScopedResult.reraised (closeConnection s) ∧
      w.id ∉ (closeConnection s).idle.map (fun u => u.id) ∧
      (closeConnection s).total = closeDecrement s.total) := by
  refine ⟨⟨releaseConnection st s w, rfl, ?_, ?_⟩, ⟨rfl, ?_, rfl⟩, ⟨rfl, ?_, rfl⟩⟩
  · simp [releaseConnection, hroom]
  · simp [releaseConnection, hroom]
  · simpa [closeConnection] using hnotin
  · simpa [closeConnection] using hnotin

theorem scoped_connection_disposal_witness :
    ∃ s', scopedExit testSettings sampleState sampleHandle OpOutcome.ok =
        ScopedResult.ok s' ∧
      sampleHandle.id ∈ s'.idle.map (fun u => u.id) ∧ s'.total = sampleState.total :=
  (scoped_connection_disposal testSettings sampleState sampleHandle
    (by decide) (by decide)).1

/-- C2: In every state reachable by any interleaving of pool operations
(warm-up runs — including re-runs after partial failure —, acquisitions,
releases, destroys), the live-handle counter never exceeds
`pool_max_connections`; the capacity check and the counter increment of
`_maybe_create_connection` form a single atomic step (`Step.createHandle`). -/
theorem total_never_exceeds_max (st : OdooSettings)
    (hmax : 0 ≤ st.pool_max_connections) (s : SysState) (h : Reachable st s) :
    s.pool.total ≤ st.pool_max_connections :=
  (inv_of_reachable h).cap hmax

theorem total_never_exceeds_max_witness :
    initSysState.pool.total ≤ testSettings.pool_max_connections :=
  total_never_exceeds_max testSettings (by decide) initSysState
    Relation.ReflTransGen.refl

/-- C3: In every reachable state the checked-out handles are pairwise
distinct objects (no two successful `acquire()` calls returned the same
handle without an intervening release/destroy), and a checked-out handle is
never simultaneously in the idle queue (exclusive ownership). -/
theorem no_double_checkout (st : OdooSettings) (s : SysState)
    (h : Reachable st s) :
    (s.checkedOut.map (fun w => w.id)).Nodup ∧
    ∀ w ∈ s.checkedOut, w.id ∉ s.pool.idle.map (fun u => u.id) := by
  have hnod := (inv_of_reachable h).nodup
  simp only [handleIds, List.map_append, List.nodup_append] at hnod
  refine ⟨hnod.2.1, ?_⟩
  intro w hw hmem
  exact hnod.2.2 hmem (List.mem_map.mpr ⟨w, hw, rfl⟩)

theorem no_double_checkout_witness :
    (initSysState.checkedOut.map (fun w => w.id)).Nodup ∧
    ∀ w ∈ initSysState.checkedOut,
      w.id ∉ initSysState.pool.idle.map (fun u => u.id) :=
  no_double_checkout testSettings initSysState Relation.ReflTransGen.refl

/-- C10 (implicit): the live-handle counter never becomes negative.
`_close_connection` clamps its decrement at zero, so (i) the clamped
decrement never produces a negative value, (ii) any sequence of counter
operations — even with more `close` operations than increments — keeps the
counter non-negative, and (iii) in every reachable state of the system the
counter is non-negative. -/
theorem counter_never_negative :
    (∀ t : Int, 0 ≤ closeDecrement t) ∧
    (∀ (ops : List CounterOp) (t₀ : Int), 0 ≤ t₀ →
      0 ≤ List.foldl applyCounterOp t₀ ops) ∧
    (∀ (st : OdooSettings) (s : SysState), Reachable st s → 0 ≤ s.pool.total) := by
  refine ⟨?_, ?_, ?_⟩
  · intro t
    exact le_max_left 0 (t - 1)
  · intro ops
    induction ops with
    | nil =>
      intro t₀ h
      simpa using h
    | cons op rest ih =>
      intro t₀ h
      simp only [List.foldl_cons]
      apply ih
      cases op
      · simp only [applyCounterOp]
        omega
      · simp only [applyCounterOp, closeDecrement]
        omega
  · intro st s h
    rw [(inv_of_reachable h).counts]
    positivity

theorem counter_never_negative_witness :
    0 ≤ List.foldl applyCounterOp 0
      [CounterOp.close, CounterOp.close, CounterOp.incr, CounterOp.close,
       CounterOp.close] :=
  counter_never_negative.2.1
    [CounterOp.close, CounterOp.close, CounterOp.incr, CounterOp.close,
     CounterOp.close] 0 (le_refl 0)

theorem warmPool_missing_key (st : OdooSettings) (hkey : st.api_key = "")
    (htarget : 1 ≤ min st.pool_min_connections st.pool_max_connections)
    (net : Nat → Bool) (s : PoolState) (hw : s.warmed = false) :
    warmPool st net s = WarmResult.failed PoolError.missingApiKey s := by
  unfold warmPool
  rw [if_neg (by simp [hw])]
  have htn : 0 < (min st.pool_min_connections st.pool_max_connections).toNat := by
    omega
  obtain ⟨m, hm⟩ := Nat.exists_eq_succ_of_ne_zero (by omega :
    (min st.pool_min_connections st.pool_max_connections).toNat ≠ 0)
  rw [hm]
  simp [warmLoop, createConnection, hkey]

/-- C6: If no credential is configured (`api_key` empty), (i) every
connection-creation attempt fails with the missing-key configuration error
before touching the network, (ii) a warm-up attempt from an unwarmed pool
fails with that error leaving the state — in particular the live-handle
counter — untouched, (iii) on-demand creation inside `acquire()` fails the
same way with the state untouched, (iv) a full `acquire()` on a fresh
manager propagates that error with the counter still 0 (the pool makes no
internal retry), and (v) settings loading itself succeeds with an empty
credential rather than raising. -/
theorem missing_api_key_behaviour (st : OdooSettings) (hkey : st.api_key = "")
    (htarget : 1 ≤ min st.pool_min_connections st.pool_max_connections) :
    (∀ (netOk : Bool) (now : Int) (id : Nat),
      createConnection st netOk now id = Except.error PoolError.missingApiKey) ∧
    (∀ (net : Nat → Bool) (s : PoolState), s.warmed = false →
      warmPool st net s = WarmResult.failed PoolError.missingApiKey s) ∧
    (∀ (net : Nat → Bool) (s : PoolState), s.total < st.pool_max_connections →
      maybeCreateConnection st net s = MCResult.failedCreate PoolError.missingApiKey s) ∧
    (∀ (net : Nat → Bool) (deltas : Nat → Int) (t : Int),
      acquireConnection st net deltas (initPoolState t) =
        AcquireResult.err PoolError.missingApiKey (initPoolState t) 0 ∧
      (initPoolState t).total = 0) ∧
    (∃ stt, loadSettings (fun _ => none) = Except.ok stt ∧ stt.api_key = "") := by
  refine ⟨?_, ?_, ?_, ?_, ?_⟩
  · intro netOk now id
    simp [createConnection, hkey]
  · intro net s hw
    exact warmPool_missing_key st hkey htarget net s hw
  · intro net s hlt
    unfold maybeCreateConnection
    rw [if_neg (by omega)]
    simp [createConnection, hkey]
  · intro net deltas t
    refine ⟨?_, rfl⟩
    unfold acquireConnection
    rw [warmPool_missing_key st hkey htarget net (initPoolState t) rfl]
  · exact ⟨_, rfl, rfl⟩

theorem missing_api_key_witness :
    createConnection emptyKeySettings true 0 0 =
      Except.error PoolError.missingApiKey :=
  (missing_api_key_behaviour emptyKeySettings rfl (by decide)).1 true 0 0

/-- C7: Warm-up runs at most once: once the pool is warmed, `_warm_pool` is
the identity (i).  From an unwarmed pool with an empty idle queue, a
configured credential and successful logins, it creates exactly
`min(pool_min_connections, pool_max_connections)` handles, enqueues each
one, increments the counter per handle and marks the pool warmed (ii).  Any
creation failure propagates out of the warm-up, aborting the remaining
iterations, with the pool left unwarmed and the already-created handles
kept (enqueued and counted, not rolled back) (iii). -/
theorem warm_up_spec (st : OdooSettings) (net : Nat → Bool) :
    (∀ s : PoolState, s.warmed = true → warmPool st net s = WarmResult.done s) ∧
    (∀ s : PoolState, s.warmed = false → s.idle = [] → st.api_key ≠ "" →
      (∀ i, net i = true) →
      ∃ s', warmPool st net s = WarmResult.done s' ∧ s'.warmed = true ∧
        s'.idle.length = (min st.pool_min_connections st.pool_max_connections).toNat ∧
        s'.total = s.total +
          (min st.pool_min_connections st.pool_max_connections).toNat ∧
        s'.nextId = s.nextId +
          (min st.pool_min_connections st.pool_max_connections).toNat ∧
        s'.now = s.now) ∧
    (∀ (s : PoolState) (e : PoolError) (s' : PoolState),
      warmPool st net s = WarmResult.failed e s' →
      s'.warmed = false ∧ s'.now = s.now ∧
      ∃ j : Nat, j ≤ (min st.pool_min_connections st.pool_max_connections).toNat ∧
        s'.total = s.total + j ∧ s'.idle.length = s.idle.length + j) := by
  refine ⟨?_, ?_, ?_⟩
  · intro s hw
    exact warmPool_already st net s hw
  · intro s hw hidle hkey hnet
    obtain ⟨s₀, h1, h2, h3, h4, h5, h6⟩ :=
      warmLoop_success st net hkey hnet
        (min st.pool_min_connections st.pool_max_connections).toNat s
        (by
          intro i hi
          rw [queueFull_eq_false_iff]
          rcases le_or_lt st.pool_max_connections 0 with hle | hpos
          · exact Or.inl hle
          · right
            rw [hidle]
            simp only [List.length_nil, Nat.zero_add]
            have : (i : Int) < min st.pool_min_connections st.pool_max_connections := by
              omega
            omega)
    refine ⟨{ s₀ with warmed := true }, ?_, rfl, ?_, ?_, ?_, ?_⟩
    · unfold warmPool
      rw [if_neg (by simp [hw]), h1]
    · simpa [hidle] using h2
    · simpa using h3
    · simpa using h4
    · simpa using h6
  · intro s e s' h
    exact warmPool_failed_spec st net s e s' h

theorem warm_up_spec_witness :
    ∃ s', warmPool testSettings (fun _ => true) (initPoolState 0) =
        WarmResult.done s' ∧ s'.warmed = true ∧
      s'.idle.length = (min testSettings.pool_min_connections
        testSettings.pool_max_connections).toNat ∧
      s'.total = (initPoolState 0).total + (min testSettings.pool_min_connections
        testSettings.pool_max_connections).toNat ∧
      s'.nextId = (initPoolState 0).nextId + (min testSettings.pool_min_connections
        testSettings.pool_max_connections).toNat ∧
      s'.now = (initPoolState 0).now :=
  (warm_up_spec testSettings (fun _ => true)).2.1 (initPoolState 0) rfl rfl
    (by decide) (fun i => rfl)

/-- C8: `ping()` returns `true` exactly when the scoped acquisition succeeds
and the trivial remote introspection call succeeds (i); every
`OdooIntegrationError` raised while acquiring a connection — including the
failure to establish one when the backend is unreachable — is swallowed and
mapped to `false` (ii); an `RPCError` from the introspection call itself is
likewise mapped to `false`, after the handle is destroyed (iii). -/
theorem ping_error_mapping (st : OdooSettings) (net : Nat → Bool)
    (deltas : Nat → Int) (s : PoolState) (body : OpOutcome) :
    (∀ s₁, ping st net deltas s body = PingResult.returns true s₁ ↔
      ∃ w s₀ b, acquireConnection st net deltas s = AcquireResult.ok w s₀ b ∧
        body = OpOutcome.ok ∧ s₁ = releaseConnection st s₀ w) ∧
    (∀ e s₀ b, acquireConnection st net deltas s = AcquireResult.err e s₀ b →
      ping st net deltas s body = PingResult.returns false s₀) ∧
    (∀ w s₀ b, acquireConnection st net deltas s = AcquireResult.ok w s₀ b →
      body = OpOutcome.rpcError →
      ping st net deltas s body = PingResult.returns false (closeConnection s₀)) := by
  refine ⟨?_, ?_, ?_⟩
  · intro s₁
    constructor
    · intro h
      unfold ping connectionWith at h
      rcases hacq : acquireConnection st net deltas s with ⟨w₀, s₀, b₀⟩ | ⟨e₀, s₀, b₀⟩ | s₀ <;>
        rw [hacq] at h
      · cases body with
        | ok =>
          cases h
          exact ⟨w₀, s₀, b₀, rfl, rfl, rfl⟩
        | rpcError => simp [scopedExit] at h
        | appError => simp [scopedExit] at h
      · simp at h
      · simp at h
    · rintro ⟨w, s₀, b, hacq, rfl, rfl⟩
      unfold ping connectionWith
      rw [hacq]
      rfl
  · intro e s₀ b hacq
    unfold ping connectionWith
    rw [hacq]
  · intro w s₀ b hacq hbody
    subst hbody
    unfold ping connectionWith
    rw [hacq]
    rfl

theorem ping_error_mapping_witness :
    ping testSettings (fun _ => false) (fun _ => 0) (initPoolState 0) OpOutcome.ok =
      PingResult.returns false (initPoolState 0) :=
  (ping_error_mapping testSettings (fun _ => false) (fun _ => 0) (initPoolState 0)
    OpOutcome.ok).2.1 PoolError.connectFailed (initPoolState 0) 0 (by decide)

/-- C4: `_should_discard` holds exactly when a positive `pool_max_idle_time`
is exceeded by the elapsed time since `last_used`, or a positive
`pool_max_lifetime` is exceeded by the elapsed time since `created_at`
(zero thresholds disable the corresponding check) (i); and `acquire()`
never returns a handle for which `_should_discard` holds at the moment of
return — stale handles are destroyed and the loop restarts (ii). -/
theorem should_discard_characterisation (st : OdooSettings)
    (hidle : 0 ≤ st.pool_max_idle_time) (hlife : 0 ≤ st.pool_max_lifetime) :
    (∀ (now : Int) (w : PooledConnection),
      shouldDiscard st now w = true ↔
        (0 < st.pool_max_idle_time ∧ st.pool_max_idle_time < now - w.last_used) ∨
        (0 < st.pool_max_lifetime ∧ st.pool_max_lifetime < now - w.created_at)) ∧
    (∀ (net : Nat → Bool) (deltas : Nat → Int) (s : PoolState)
        (w : PooledConnection) (s' : PoolState) (b : Int),
      acquireConnection st net deltas s = AcquireResult.ok w s' b →
      shouldDiscard st s'.now w = false) := by
  constructor
  · intro now w
    by_cases h1 : st.pool_max_idle_time ≠ 0 ∧ st.pool_max_idle_time < now - w.last_used
    · simp only [shouldDiscard, if_pos h1, true_iff]
      left
      exact ⟨by omega, h1.2⟩
    · by_cases h2 : st.pool_max_lifetime ≠ 0 ∧ st.pool_max_lifetime < now - w.created_at
      · simp only [shouldDiscard, if_neg h1, if_pos h2, true_iff]
        right
        exact ⟨by omega, h2.2⟩
      · simp only [shouldDiscard, if_neg h1, if_neg h2, Bool.false_eq_true, false_iff]
        omega
  · intro net deltas s w s' b hacq
    unfold acquireConnection at hacq
    rcases hwp : warmPool st net s with s₀ | ⟨e₀, s₀⟩ | s₀ <;> rw [hwp] at hacq
    · simp only [acquireConn] at hacq
      rcases hscan : acquireScan st deltas 0 s₀.idle s₀.total s₀.now with
        ⟨o, total', now', k'⟩
      rw [hscan] at hacq
      cases o with
      | some p =>
        rcases p with ⟨w₀, rest⟩
        simp only [] at hacq
        cases hacq
        have hns := acquireScan_some_not_stale st deltas s₀.idle 0 s₀.total s₀.now
          _ _ _ _ _ hscan
        simpa using hns
      | none =>
        simp only [] at hacq
        split at hacq
        · cases hacq
        · rename_i w₁ s₁ heq
          cases hacq
          obtain ⟨hw₁, hs₁, -⟩ := maybeCreate_created_spec _ _ _ _ _ heq
          rw [hw₁, hs₁]
          exact shouldDiscard_fresh st hidle hlife _ _
        · split at hacq <;> cases hacq
    · cases hacq
    · cases hacq

theorem should_discard_characterisation_witness :
    shouldDiscard testSettings 301 sampleHandle = true ↔
      (0 < testSettings.pool_max_idle_time ∧
        testSettings.pool_max_idle_time < 301 - sampleHandle.last_used) ∨
      (0 < testSettings.pool_max_lifetime ∧
        testSettings.pool_max_lifetime < 301 - sampleHandle.created_at) :=
  (should_discard_characterisation testSettings (by decide) (by decide)).1
    301 sampleHandle

/-- C5: With the pool warmed, any failing `acquire()` spent at most
`pool_connection_timeout` blocked inside the queue `get` — the deadline is
absolute, fixed on entry, so time spent destroying stale handles only
consumes the time that actually elapsed (i); and when the pool is saturated
(empty idle queue, counter at or above capacity) `acquire()` fails with a
pool-exhaustion error — the entry-time timeout raise or the blocking-get
timeout raise — rather than returning or hanging (ii). -/
theorem acquire_timeout_bound (st : OdooSettings)
    (htmo : 0 ≤ st.pool_connection_timeout) (net : Nat → Bool) (deltas : Nat → Int)
    (hdel : ∀ k, 0 ≤ deltas k) (s : PoolState) (hw : s.warmed = true) :
    (∀ e s' b, acquireConnection st net deltas s = AcquireResult.err e s' b →
      0 ≤ b ∧ b ≤ st.pool_connection_timeout) ∧
    (s.idle = [] → st.pool_max_connections ≤ s.total →
      ∃ e s' b, acquireConnection st net deltas s = AcquireResult.err e s' b ∧
        (e = PoolError.acquireTimeout ∨ e = PoolError.noAvailable)) := by
  have hwp := warmPool_already st net s hw
  constructor
  · intro e s' b hacq
    unfold acquireConnection at hacq
    rw [hwp] at hacq
    simp only [acquireConn] at hacq
    rcases hscan : acquireScan st deltas 0 s.idle s.total s.now with
      ⟨o, total', now', k'⟩
    rw [hscan] at hacq
    have hmono : s.now ≤ now' :=
      acquireScan_now_mono st deltas hdel s.idle 0 s.total s.now o total' now' k' hscan
    cases o with
    | some p =>
      rcases p with ⟨w₀, rest⟩
      simp only [] at hacq
      cases hacq
    | none =>
      simp only [] at hacq
      split at hacq
      · cases hacq
        exact ⟨le_refl 0, htmo⟩
      · cases hacq
      · rename_i s₁ heq
        obtain ⟨hs₁, -⟩ := maybeCreate_noCapacity_spec _ _ _ _ heq
        subst hs₁
        have hd := hdel k'
        split at hacq
        · cases hacq
          exact ⟨le_refl 0, htmo⟩
        · rename_i hrem
          cases hacq
          simp only at hrem ⊢
          constructor
          · omega
          · omega
  · intro hidle hsat
    unfold acquireConnection
    rw [hwp]
    exact acquireConn_saturated st net deltas s hidle hsat

theorem acquire_timeout_bound_witness :
    ∃ e s' b, acquireConnection testSettings (fun _ => true) (fun _ => 0)
        saturatedState = AcquireResult.err e s' b ∧
      (e = PoolError.acquireTimeout ∨ e = PoolError.noAvailable) :=
  (acquire_timeout_bound testSettings (by decide) (fun _ => true) (fun _ => 0)
    (fun k => le_refl 0) saturatedState rfl).2 rfl (by decide)

/-- C9: In the degenerate configuration `pool_max_connections = 0` (the
idle queue is necessarily empty and no handle can ever be created), every
`acquire()` call terminates with a pool-exhaustion failure — immediately at
the deadline check or at the blocking-get timeout — rather than deadlocking:
warm-up trivially completes (its target is 0) and the loop cannot return a
handle. -/
theorem acquire_fails_when_max_zero (st : OdooSettings)
    (hmax : st.pool_max_connections = 0) (net : Nat → Bool) (deltas : Nat → Int)
    (s : PoolState) (hidle : s.idle = []) (htot : 0 ≤ s.total) :
    ∃ e s' b, acquireConnection st net deltas s = AcquireResult.err e s' b ∧
      (e = PoolError.acquireTimeout ∨ e = PoolError.noAvailable) := by
  have hsat : st.pool_max_connections ≤ s.total := by omega
  cases hw : s.warmed with
  | true =>
    unfold acquireConnection
    rw [warmPool_already st net s hw]
    exact acquireConn_saturated st net deltas s hidle hsat
  | false =>
    have htarget : (min st.pool_min_connections st.pool_max_connections).toNat = 0 := by
      have h := min_le_right st.pool_min_connections st.pool_max_connections
      omega
    have hwp : warmPool st net s = WarmResult.done { s with warmed := true } := by
      unfold warmPool
      rw [if_neg (by simp [hw]), htarget]
      rfl
    unfold acquireConnection
    rw [hwp]
    exact acquireConn_saturated st net deltas { s with warmed := true } hidle hsat

theorem acquire_fails_when_max_zero_witness :
    ∃ e s' b, acquireConnection zeroMaxSettings (fun _ => true) (fun _ => 0)
        (initPoolState 0) = AcquireResult.err e s' b ∧
      (e = PoolError.acquireTimeout ∨ e = PoolError.noAvailable) :=
  acquire_fails_when_max_zero zeroMaxSettings rfl (fun _ => true) (fun _ => 0)
    (initPoolState 0) rfl (by decide)

end StreamlitOdoo
